import Mathlib

/-!
Shallow embedding of the lswap two-asset liquidity pool (AMM).

The repository ships the AMM's hardhat test suite (test/AMM.js) and a Redux
slice (src/store/reducers/amm.js); the Solidity contract `AMM` itself is not
among the source files, so the pool engine below is modelled from the spec's
description of PoolState, LiquidityManager and SwapEngine, with fixed-point
quantities as natural numbers (18 fractional digits, floor division) and the
external ledger abstracted as a boolean transfer oracle.  The Redux slice is
embedded directly from its source.
-/

namespace LSwap

/-- Modelled from the spec: the error taxonomy of the pool engine (§7);
the contract source is missing from the repository. -/
inductive AMMError where
  | ZeroAmount
  | EmptyPool
  | RatioMismatch
  | InsufficientShares
  | InsufficientLiquidity
  | TransferFailed
deriving Repr, DecidableEq

/-- Modelled from the spec: the Pool data model (§3) — reserves, total
shares, and the per-owner share ledger (owners named by naturals, ledger an
association list); the contract source is missing from the repository. -/
structure AMMState where
  reserveA : Nat
  reserveB : Nat
  totalShares : Nat
  shareOf : List (Nat × Nat)
deriving Repr, DecidableEq

/-- Modelled from the spec: `INITIAL_SHARES`, "100 units at full scale"
with 18 fractional digits (§4.2). -/
def INITIAL_SHARES : Nat := 100 * 10 ^ 18

/-- Share balance of an owner in the ledger (0 when absent). -/
def lookupShares : List (Nat × Nat) → Nat → Nat
  | [], _ => 0
  | (k, v) :: rest, o => if k = o then v else lookupShares rest o

/-- Add `amt` to an owner's ledger entry, inserting the owner if absent. -/
def creditShares : List (Nat × Nat) → Nat → Nat → List (Nat × Nat)
  | [], o, amt => [(o, amt)]
  | (k, v) :: rest, o, amt =>
    if k = o then (k, v + amt) :: rest else (k, v) :: creditShares rest o amt

/-- Subtract `amt` from an owner's ledger entry (truncated at zero). -/
def debitShares : List (Nat × Nat) → Nat → Nat → List (Nat × Nat)
  | [], _, _ => []
  | (k, v) :: rest, o, amt =>
    if k = o then (k, v - amt) :: rest else (k, v) :: debitShares rest o amt

/-- Sum of all share balances in the ledger. -/
def sumShares (l : List (Nat × Nat)) : Nat := (l.map Prod.snd).sum

/-- The pool as created: both reserves zero, no shares issued. -/
def emptyState : AMMState := ⟨0, 0, 0, []⟩

/-- Modelled from the spec: `calculateToken2Deposit(amountA)` (§4.2);
the contract source is missing from the repository. -/
def calculateToken2Deposit (s : AMMState) (amountA : Nat) : Except AMMError Nat :=
  if s.reserveA = 0 then .error .EmptyPool
  else .ok (s.reserveB * amountA / s.reserveA)

/-- Modelled from the spec: `calculateToken1Swap(amountIn)` (§4.3),
direction A→B; the contract source is missing from the repository. -/
def calculateToken1Swap (s : AMMState) (amountIn : Nat) : Except AMMError Nat :=
  if s.totalShares = 0 then .error .EmptyPool
  else if amountIn = 0 then .error .ZeroAmount
  else if s.reserveB ≤ s.reserveB - s.reserveA * s.reserveB / (s.reserveA + amountIn) then
    .error .InsufficientLiquidity
  else .ok (s.reserveB - s.reserveA * s.reserveB / (s.reserveA + amountIn))

/-- Modelled from the spec: `calculateToken2Swap(amountIn)` (§4.3),
direction B→A, symmetric to `calculateToken1Swap`; the contract source is
missing from the repository. -/
def calculateToken2Swap (s : AMMState) (amountIn : Nat) : Except AMMError Nat :=
  if s.totalShares = 0 then .error .EmptyPool
  else if amountIn = 0 then .error .ZeroAmount
  else if s.reserveA ≤ s.reserveA - s.reserveB * s.reserveA / (s.reserveB + amountIn) then
    .error .InsufficientLiquidity
  else .ok (s.reserveA - s.reserveB * s.reserveA / (s.reserveB + amountIn))

/-- Modelled from the spec: `addLiquidity(amountA, amountB, provider)`
(§4.2); the contract source is missing from the repository.  `xferOk` is the
external-ledger oracle: when false the external pull fails and the call
aborts with `TransferFailed` (§5: transfers are the last step). -/
def addLiquidity (s : AMMState) (amountA amountB provider : Nat) (xferOk : Bool) :
    Except AMMError AMMState :=
  if amountA = 0 ∨ amountB = 0 then .error .ZeroAmount
  else if s.totalShares = 0 then
    if xferOk then
      .ok ⟨amountA, amountB, INITIAL_SHARES, creditShares s.shareOf provider INITIAL_SHARES⟩
    else .error .TransferFailed
  else if amountB ≠ s.reserveB * amountA / s.reserveA then .error .RatioMismatch
  else
    if xferOk then
      .ok ⟨s.reserveA + amountA, s.reserveB + amountB,
           s.totalShares + s.totalShares * amountA / s.reserveA,
           creditShares s.shareOf provider (s.totalShares * amountA / s.reserveA)⟩
    else .error .TransferFailed

/-- Modelled from the spec: `removeLiquidity(shareAmount, provider)` (§4.2);
the contract source is missing from the repository.  Returns the new state
together with the payouts `outA` and `outB`. -/
def removeLiquidity (s : AMMState) (shareAmount provider : Nat) (xferOk : Bool) :
    Except AMMError (AMMState × Nat × Nat) :=
  if shareAmount = 0 then .error .ZeroAmount
  else if lookupShares s.shareOf provider < shareAmount then .error .InsufficientShares
  else
    if xferOk then
      .ok (⟨s.reserveA - s.reserveA * shareAmount / s.totalShares,
            s.reserveB - s.reserveB * shareAmount / s.totalShares,
            s.totalShares - shareAmount,
            debitShares s.shareOf provider shareAmount⟩,
           s.reserveA * shareAmount / s.totalShares,
           s.reserveB * shareAmount / s.totalShares)
    else .error .TransferFailed

/-- Modelled from the spec: `swapToken1(amountIn, trader)` (§4.3) — price
the trade with `calculateToken1Swap` against the pre-state snapshot, then
commit the reserve updates; the contract source is missing from the
repository.  Returns the new state and the amount delivered to the trader. -/
def swapToken1 (s : AMMState) (amountIn : Nat) (xferOk : Bool) :
    Except AMMError (AMMState × Nat) :=
  match calculateToken1Swap s amountIn with
  | .error e => .error e
  | .ok amountOut =>
    if xferOk then
      .ok ({ s with reserveA := s.reserveA + amountIn, reserveB := s.reserveB - amountOut },
           amountOut)
    else .error .TransferFailed

/-- Modelled from the spec: `swapToken2(amountIn, trader)` (§4.3),
symmetric to `swapToken1`; the contract source is missing from the
repository. -/
def swapToken2 (s : AMMState) (amountIn : Nat) (xferOk : Bool) :
    Except AMMError (AMMState × Nat) :=
  match calculateToken2Swap s amountIn with
  | .error e => .error e
  | .ok amountOut =>
    if xferOk then
      .ok ({ s with reserveB := s.reserveB + amountIn, reserveA := s.reserveA - amountOut },
           amountOut)
    else .error .TransferFailed

/-- One mutating call on the pool, with its arguments and the transfer
oracle's verdict. -/
inductive AMMOp where
  | addLiquidity (amountA amountB provider : Nat) (xferOk : Bool)
  | removeLiquidity (shareAmount provider : Nat) (xferOk : Bool)
  | swapToken1 (amountIn : Nat) (xferOk : Bool)
  | swapToken2 (amountIn : Nat) (xferOk : Bool)

/-- Run one mutating call, keeping only the resulting state. -/
def runOp (s : AMMState) : AMMOp → Except AMMError AMMState
  | .addLiquidity a b p x => addLiquidity s a b p x
  | .removeLiquidity sh p x =>
    match removeLiquidity s sh p x with
    | .ok (s', _, _) => .ok s'
    | .error e => .error e
  | .swapToken1 a x =>
    match swapToken1 s a x with
    | .ok (s', _) => .ok s'
    | .error e => .error e
  | .swapToken2 a x =>
    match swapToken2 s a x with
    | .ok (s', _) => .ok s'
    | .error e => .error e

/-- The state observed after a call: on success the new state, on failure
the untouched old state (every operation is atomic, §5/§7). -/
def applyOp (s : AMMState) (op : AMMOp) : AMMState :=
  match runOp s op with
  | .ok s' => s'
  | .error _ => s

/-- States reachable from the freshly created pool by successful calls. -/
inductive Reachable : AMMState → Prop where
  | init : Reachable emptyState
  | step (s : AMMState) (op : AMMOp) (s' : AMMState) :
      Reachable s → runOp s op = .ok s' → Reachable s'

end LSwap

namespace AmmSlice

/-- The `amm` Redux slice state (src/store/reducers/amm.js): a contract
triple (initially three nulls), a shares triple and a swaps list. -/
structure State where
  contract : List (Option Nat)
  shares : List Nat
  swaps : List Nat
deriving Repr, DecidableEq

/-- The slice's `initialState`. -/
def initialState : State :=
  { contract := [none, none, none], shares := [0, 0, 0], swaps := [] }

/-- The `setContract` reducer: `state.contract = action.payload`. -/
def setContract (s : State) (payload : List (Option Nat)) : State :=
  { s with contract := payload }

end AmmSlice

namespace LSwap

theorem sumShares_nil : sumShares [] = 0 := rfl

theorem sumShares_cons (k v : Nat) (l : List (Nat × Nat)) :
    sumShares ((k, v) :: l) = v + sumShares l := by
  simp [sumShares]

theorem sumShares_creditShares (l : List (Nat × Nat)) (o amt : Nat) :
    sumShares (creditShares l o amt) = sumShares l + amt := by
  induction l with
  | nil => simp [creditShares, sumShares]
  | cons hd tl ih =>
    obtain ⟨k, v⟩ := hd
    by_cases hk : k = o
    · simp [creditShares, hk, sumShares_cons]
      omega
    · simp [creditShares, hk, sumShares_cons, ih]
      omega

theorem lookupShares_le_sumShares (l : List (Nat × Nat)) (o : Nat) :
    lookupShares l o ≤ sumShares l := by
  induction l with
  | nil => simp [lookupShares, sumShares]
  | cons hd tl ih =>
    obtain ⟨k, v⟩ := hd
    by_cases hk : k = o
    · simp [lookupShares, hk, sumShares_cons]
    · simp [lookupShares, hk, sumShares_cons]
      omega

theorem sumShares_debitShares (l : List (Nat × Nat)) (o amt : Nat)
    (h : amt ≤ lookupShares l o) :
    sumShares (debitShares l o amt) = sumShares l - amt := by
  induction l with
  | nil => simp [debitShares, sumShares]
  | cons hd tl ih =>
    obtain ⟨k, v⟩ := hd
    by_cases hk : k = o
    · simp [lookupShares, hk] at h
      simp [debitShares, hk, sumShares_cons]
      omega
    · simp [lookupShares, hk] at h
      have hle := lookupShares_le_sumShares tl o
      simp [debitShares, hk, sumShares_cons, ih h]
      omega

theorem lookupShares_creditShares_self (l : List (Nat × Nat)) (o amt : Nat) :
    lookupShares (creditShares l o amt) o = lookupShares l o + amt := by
  induction l with
  | nil => simp [creditShares, lookupShares]
  | cons hd tl ih =>
    obtain ⟨k, v⟩ := hd
    by_cases hk : k = o
    · simp [creditShares, hk, lookupShares]
    · simp [creditShares, hk, lookupShares, ih]

theorem lookupShares_debitShares_self (l : List (Nat × Nat)) (o amt : Nat) :
    lookupShares (debitShares l o amt) o = lookupShares l o - amt := by
  induction l with
  | nil => simp [debitShares, lookupShares]
  | cons hd tl ih =>
    obtain ⟨k, v⟩ := hd
    by_cases hk : k = o
    · simp [debitShares, hk, lookupShares]
    · simp [debitShares, hk, lookupShares, ih]

end LSwap

namespace LSwap

/-- The pool invariants of §3: the share ledger sums to `totalShares`, and
the pool is either fully empty or fully seeded. -/
def Inv (s : AMMState) : Prop :=
  sumShares s.shareOf = s.totalShares ∧
  (s.totalShares = 0 → s.reserveA = 0 ∧ s.reserveB = 0) ∧
  (s.totalShares ≠ 0 → s.reserveA ≠ 0 ∧ s.reserveB ≠ 0)

theorem Inv_emptyState : Inv emptyState := by
  refine ⟨rfl, fun _ => ⟨rfl, rfl⟩, fun h => absurd rfl h⟩

theorem INITIAL_SHARES_ne_zero : INITIAL_SHARES ≠ 0 := by
  simp [INITIAL_SHARES]

theorem addLiquidity_preserves_Inv (s : AMMState) (a b p : Nat) (x : Bool)
    (s' : AMMState) (hInv : Inv s) (h : addLiquidity s a b p x = .ok s') : Inv s' := by
  obtain ⟨hsum, _, _⟩ := hInv
  unfold addLiquidity at h
  split_ifs at h with h0 hT hR
  · injection h with h
    subst h
    push_neg at h0
    refine ⟨?_, ?_, ?_⟩
    · simp [sumShares_creditShares, hsum, hT]
    · intro hi
      exact absurd hi INITIAL_SHARES_ne_zero
    · intro _
      exact ⟨h0.1, h0.2⟩
  · injection h with h
    subst h
    push_neg at h0
    refine ⟨?_, ?_, ?_⟩
    · simp [sumShares_creditShares, hsum]
    · intro hi
      simp at hi
      omega
    · intro _
      constructor <;> simp <;> omega

theorem removeLiquidity_preserves_Inv (s : AMMState) (sh p : Nat) (x : Bool)
    (s' : AMMState) (oA oB : Nat) (hInv : Inv s)
    (h : removeLiquidity s sh p x = .ok (s', oA, oB)) : Inv s' := by
  obtain ⟨hsum, hzero, hpos⟩ := hInv
  unfold removeLiquidity at h
  split_ifs at h with h0 h1
  injection h with h
  simp only [Prod.mk.injEq] at h
  obtain ⟨hs, -, -⟩ := h
  subst hs
  have hlk : sh ≤ lookupShares s.shareOf p := by omega
  have hls : lookupShares s.shareOf p ≤ sumShares s.shareOf :=
    lookupShares_le_sumShares s.shareOf p
  have hT : s.totalShares ≠ 0 := by omega
  have hTpos : 0 < s.totalShares := Nat.pos_of_ne_zero hT
  obtain ⟨hA, hB⟩ := hpos hT
  refine ⟨?_, ?_, ?_⟩
  · simp [sumShares_debitShares s.shareOf p sh hlk, hsum]
  · intro hi
    simp at hi ⊢
    have hEq : sh = s.totalShares := by omega
    have hdA : s.reserveA * sh / s.totalShares = s.reserveA := by
      rw [hEq]
      exact Nat.mul_div_left s.reserveA hTpos
    have hdB : s.reserveB * sh / s.totalShares = s.reserveB := by
      rw [hEq]
      exact Nat.mul_div_left s.reserveB hTpos
    constructor <;> omega
  · intro hi
    simp at hi ⊢
    have hlt : sh < s.totalShares := by omega
    have hdA : s.reserveA * sh / s.totalShares < s.reserveA := by
      rw [Nat.div_lt_iff_lt_mul hTpos]
      exact mul_lt_mul_of_pos_left hlt (Nat.pos_of_ne_zero hA)
    have hdB : s.reserveB * sh / s.totalShares < s.reserveB := by
      rw [Nat.div_lt_iff_lt_mul hTpos]
      exact mul_lt_mul_of_pos_left hlt (Nat.pos_of_ne_zero hB)
    constructor <;> omega

theorem swapToken1_preserves_Inv (s : AMMState) (a : Nat) (x : Bool)
    (s' : AMMState) (out : Nat) (hInv : Inv s)
    (h : swapToken1 s a x = .ok (s', out)) : Inv s' := by
  obtain ⟨hsum, hzero, hpos⟩ := hInv
  unfold swapToken1 at h
  cases hc : calculateToken1Swap s a with
  | error e => rw [hc] at h; exact Except.noConfusion h
  | ok amountOut =>
    rw [hc] at h
    unfold calculateToken1Swap at hc
    split_ifs at hc with hT h0 hIL
    injection hc with hc
    split_ifs at h
    injection h with h
    simp only [Prod.mk.injEq] at h
    obtain ⟨hs, -⟩ := h
    subst hs
    refine ⟨hsum, ?_, ?_⟩
    · intro hi
      exact absurd hi hT
    · intro _
      obtain ⟨hA, hB⟩ := hpos hT
      constructor <;> simp <;> omega

theorem swapToken2_preserves_Inv (s : AMMState) (a : Nat) (x : Bool)
    (s' : AMMState) (out : Nat) (hInv : Inv s)
    (h : swapToken2 s a x = .ok (s', out)) : Inv s' := by
  obtain ⟨hsum, hzero, hpos⟩ := hInv
  unfold swapToken2 at h
  cases hc : calculateToken2Swap s a with
  | error e => rw [hc] at h; exact Except.noConfusion h
  | ok amountOut =>
    rw [hc] at h
    unfold calculateToken2Swap at hc
    split_ifs at hc with hT h0 hIL
    injection hc with hc
    split_ifs at h
    injection h with h
    simp only [Prod.mk.injEq] at h
    obtain ⟨hs, -⟩ := h
    subst hs
    refine ⟨hsum, ?_, ?_⟩
    · intro hi
      exact absurd hi hT
    · intro _
      obtain ⟨hA, hB⟩ := hpos hT
      constructor <;> simp <;> omega

end LSwap

namespace LSwap

theorem runOp_preserves_Inv (s : AMMState) (op : AMMOp) (s' : AMMState)
    (hInv : Inv s) (h : runOp s op = .ok s') : Inv s' := by
  cases op with
  | addLiquidity a b p x =>
    exact addLiquidity_preserves_Inv s a b p x s' hInv h
  | removeLiquidity sh p x =>
    cases hr : removeLiquidity s sh p x with
    | error e => simp [runOp, hr] at h
    | ok r =>
      obtain ⟨s1, oA, oB⟩ := r
      simp only [runOp, hr] at h
      injection h with h
      subst h
      exact removeLiquidity_preserves_Inv s sh p x s1 oA oB hInv hr
  | swapToken1 a x =>
    cases hr : swapToken1 s a x with
    | error e => simp [runOp, hr] at h
    | ok r =>
      obtain ⟨s1, out⟩ := r
      simp only [runOp, hr] at h
      injection h with h
      subst h
      exact swapToken1_preserves_Inv s a x s1 out hInv hr
  | swapToken2 a x =>
    cases hr : swapToken2 s a x with
    | error e => simp [runOp, hr] at h
    | ok r =>
      obtain ⟨s1, out⟩ := r
      simp only [runOp, hr] at h
      injection h with h
      subst h
      exact swapToken2_preserves_Inv s a x s1 out hInv hr

theorem reachable_Inv (s : AMMState) (h : Reachable s) : Inv s := by
  induction h with
  | init => exact Inv_emptyState
  | step s op s' hs hok ih => exact runOp_preserves_Inv s op s' ih hok

end LSwap

namespace LSwap

/-- Claim C1 (amended): for a seeded pool (totalShares > 0) and nonzero
amountIn with the output strictly less than reserveB, calculateToken1Swap
returns reserveB - floor(reserveA * reserveB / (reserveA + amountIn)); the
particular instance reserveA = reserveB = 150000, calculateToken1Swap(1) = 1
holds for the raw integer quantities (see the witness), not for the
quantities scaled by 10^18. -/
theorem calculateToken1Swap_spec (s : AMMState) (amountIn : Nat)
    (hT : s.totalShares ≠ 0) (hIn : amountIn ≠ 0)
    (hOut : s.reserveB - s.reserveA * s.reserveB / (s.reserveA + amountIn) < s.reserveB) :
    calculateToken1Swap s amountIn =
      .ok (s.reserveB - s.reserveA * s.reserveB / (s.reserveA + amountIn)) := by
  unfold calculateToken1Swap
  rw [if_neg hT, if_neg hIn, if_neg (by omega)]

/-- Witness for C1: on the pool with reserveA = reserveB = 150000 (raw
units), swapping in 1 is quoted exactly 1. -/
theorem calculateToken1Swap_spec_witness :
    calculateToken1Swap ⟨150000, 150000, 100, [(0, 100)]⟩ 1 = .ok 1 := by
  have h := calculateToken1Swap_spec ⟨150000, 150000, 100, [(0, 100)]⟩ 1
    (by decide) (by decide) (by decide)
  exact h.trans rfl

/-- Counterexample for C1 as stated: at full scale (18 fractional digits,
reserves 150000·10^18), calculateToken1Swap(10^18) returns
999993333377777482 — strictly below 10^18, not exactly one full unit. -/
theorem calculateToken1Swap_fullScale_not_one :
    calculateToken1Swap
      ⟨150000 * 10 ^ 18, 150000 * 10 ^ 18, 100 * 10 ^ 18, [(0, 100 * 10 ^ 18)]⟩
      (10 ^ 18) = .ok 999993333377777482 ∧
    (999993333377777482 : Nat) ≠ 10 ^ 18 :=
  ⟨rfl, by decide⟩

/-- Claim C2: the amount delivered by a successful swapToken1 (resp.
swapToken2) equals the value of calculateToken1Swap (resp.
calculateToken2Swap) computed against the same pre-state. -/
theorem swap_delivers_calculated_amount (s : AMMState) (amountIn : Nat) (x : Bool)
    (s' : AMMState) (out : Nat) :
    (swapToken1 s amountIn x = .ok (s', out) →
      calculateToken1Swap s amountIn = .ok out) ∧
    (swapToken2 s amountIn x = .ok (s', out) →
      calculateToken2Swap s amountIn = .ok out) := by
  constructor
  · intro h
    unfold swapToken1 at h
    cases hc : calculateToken1Swap s amountIn with
    | error e => rw [hc] at h; exact Except.noConfusion h
    | ok v =>
      rw [hc] at h
      split_ifs at h
      injection h with h
      simp only [Prod.mk.injEq] at h
      rw [h.2]
  · intro h
    unfold swapToken2 at h
    cases hc : calculateToken2Swap s amountIn with
    | error e => rw [hc] at h; exact Except.noConfusion h
    | ok v =>
      rw [hc] at h
      split_ifs at h
      injection h with h
      simp only [Prod.mk.injEq] at h
      rw [h.2]

/-- Witness for C2: a concrete successful swap of 2 units of token1 against
reserves (2, 2) delivers exactly the calculated quote of 1. -/
theorem swap_delivers_calculated_amount_witness :
    calculateToken1Swap ⟨2, 2, 7, []⟩ 2 = .ok 1 :=
  (swap_delivers_calculated_amount ⟨2, 2, 7, []⟩ 2 true ⟨4, 1, 7, []⟩ 1).1 rfl

end LSwap

namespace LSwap

/-- Claim C4 (amended): for every successful swap in either direction, the
product of the two reserves after the swap is at most — not at least — the
product before: flooring the post-trade opposing reserve rounds the output
up in the trader's favour, so the constant product weakly decreases. -/
theorem swap_product_nonincreasing (s : AMMState) (amountIn : Nat) (x : Bool)
    (s' : AMMState) (out : Nat) :
    (swapToken1 s amountIn x = .ok (s', out) →
      s'.reserveA * s'.reserveB ≤ s.reserveA * s.reserveB) ∧
    (swapToken2 s amountIn x = .ok (s', out) →
      s'.reserveA * s'.reserveB ≤ s.reserveA * s.reserveB) := by
  constructor
  · intro h
    unfold swapToken1 at h
    cases hc : calculateToken1Swap s amountIn with
    | error e => rw [hc] at h; exact Except.noConfusion h
    | ok v =>
      rw [hc] at h
      split_ifs at h
      injection h with h
      simp only [Prod.mk.injEq] at h
      obtain ⟨hs, hv⟩ := h
      subst hs
      unfold calculateToken1Swap at hc
      split_ifs at hc with hT h0 hIL
      injection hc with hc
      show (s.reserveA + amountIn) * (s.reserveB - v) ≤ s.reserveA * s.reserveB
      have hd : s.reserveA * s.reserveB / (s.reserveA + amountIn) ≤ s.reserveB :=
        Nat.div_le_of_le_mul (Nat.mul_le_mul_right s.reserveB (Nat.le_add_right _ _))
      have heq : s.reserveB - v = s.reserveA * s.reserveB / (s.reserveA + amountIn) := by
        omega
      rw [heq, Nat.mul_comm]
      exact Nat.div_mul_le_self _ _
  · intro h
    unfold swapToken2 at h
    cases hc : calculateToken2Swap s amountIn with
    | error e => rw [hc] at h; exact Except.noConfusion h
    | ok v =>
      rw [hc] at h
      split_ifs at h
      injection h with h
      simp only [Prod.mk.injEq] at h
      obtain ⟨hs, hv⟩ := h
      subst hs
      unfold calculateToken2Swap at hc
      split_ifs at hc with hT h0 hIL
      injection hc with hc
      show (s.reserveA - v) * (s.reserveB + amountIn) ≤ s.reserveA * s.reserveB
      have hd : s.reserveB * s.reserveA / (s.reserveB + amountIn) ≤ s.reserveA :=
        Nat.div_le_of_le_mul (Nat.mul_le_mul_right s.reserveA (Nat.le_add_right _ _))
      have heq : s.reserveA - v = s.reserveB * s.reserveA / (s.reserveB + amountIn) := by
        omega
      rw [heq]
      calc s.reserveB * s.reserveA / (s.reserveB + amountIn) * (s.reserveB + amountIn)
          ≤ s.reserveB * s.reserveA := Nat.div_mul_le_self _ _
        _ = s.reserveA * s.reserveB := Nat.mul_comm _ _

/-- Witness for C4 (amended): a concrete successful swapToken2 whose
post-trade reserve product is bounded by the pre-trade product. -/
theorem swap_product_nonincreasing_witness :
    (AMMState.mk 1 4 7 []).reserveA * (AMMState.mk 1 4 7 []).reserveB ≤
      (AMMState.mk 2 2 7 []).reserveA * (AMMState.mk 2 2 7 []).reserveB :=
  (swap_product_nonincreasing ⟨2, 2, 7, []⟩ 2 true ⟨1, 4, 7, []⟩ 1).2 rfl

/-- Counterexample for C4 as stated: swapping 1 unit of token1 against
reserves (150000, 150000) succeeds, yet the product of the reserves falls
from 150000·150000 to 150001·149999 — strictly below its pre-swap value. -/
theorem swap_product_decreases_example :
    swapToken1 ⟨150000, 150000, 100, [(0, 100)]⟩ 1 true =
      .ok (⟨150001, 149999, 100, [(0, 100)]⟩, 1) ∧
    150001 * 149999 < 150000 * 150000 :=
  ⟨rfl, by decide⟩

/-- Claim C3: in every state reachable from the empty pool by successful
operations, the per-owner share balances sum to totalShares. -/
theorem shareConservation (s : AMMState) (h : Reachable s) :
    sumShares s.shareOf = s.totalShares :=
  (reachable_Inv s h).1

/-- Witness for C3: share conservation holds in the concrete state reached
by the first deposit. -/
theorem shareConservation_witness :
    sumShares (AMMState.mk 100000 100000 INITIAL_SHARES [(0, INITIAL_SHARES)]).shareOf =
      (AMMState.mk 100000 100000 INITIAL_SHARES [(0, INITIAL_SHARES)]).totalShares :=
  shareConservation _
    (Reachable.step emptyState (.addLiquidity 100000 100000 0 true) _ Reachable.init rfl)

/-- Claim C8: in every reachable state, totalShares = 0 exactly when both
reserves are 0, and whenever totalShares > 0 both reserves are nonzero. -/
theorem emptinessDuality (s : AMMState) (h : Reachable s) :
    (s.totalShares = 0 ↔ s.reserveA = 0 ∧ s.reserveB = 0) ∧
    (s.totalShares ≠ 0 → s.reserveA ≠ 0 ∧ s.reserveB ≠ 0) := by
  obtain ⟨-, hz, hp⟩ := reachable_Inv s h
  refine ⟨⟨hz, ?_⟩, hp⟩
  intro hab
  by_contra hT
  exact (hp hT).1 hab.1

/-- Witness for C8: emptiness duality in the concrete state reached by a
first deposit followed by a swap. -/
theorem emptinessDuality_witness :
    ((AMMState.mk 6 1 INITIAL_SHARES [(5, INITIAL_SHARES)]).totalShares = 0 ↔
      (AMMState.mk 6 1 INITIAL_SHARES [(5, INITIAL_SHARES)]).reserveA = 0 ∧
      (AMMState.mk 6 1 INITIAL_SHARES [(5, INITIAL_SHARES)]).reserveB = 0) ∧
    ((AMMState.mk 6 1 INITIAL_SHARES [(5, INITIAL_SHARES)]).totalShares ≠ 0 →
      (AMMState.mk 6 1 INITIAL_SHARES [(5, INITIAL_SHARES)]).reserveA ≠ 0 ∧
      (AMMState.mk 6 1 INITIAL_SHARES [(5, INITIAL_SHARES)]).reserveB ≠ 0) :=
  emptinessDuality _
    (Reachable.step _ (.swapToken1 3 true) _
      (Reachable.step emptyState (.addLiquidity 3 3 5 true) _ Reachable.init rfl) rfl)

end LSwap

namespace LSwap

/-- Claim C5: on an empty pool (totalShares = 0), addLiquidity with nonzero
amounts sets the reserves to the deposited amounts, credits exactly
INITIAL_SHARES (100 units at full scale) to the provider, and sets
totalShares = INITIAL_SHARES, regardless of the ratio of the amounts. -/
theorem addLiquidity_empty_spec (s : AMMState) (amountA amountB provider : Nat)
    (hT : s.totalShares = 0) (hA : amountA ≠ 0) (hB : amountB ≠ 0) :
    addLiquidity s amountA amountB provider true =
      .ok ⟨amountA, amountB, INITIAL_SHARES,
           creditShares s.shareOf provider INITIAL_SHARES⟩ ∧
    lookupShares (creditShares s.shareOf provider INITIAL_SHARES) provider =
      lookupShares s.shareOf provider + INITIAL_SHARES ∧
    INITIAL_SHARES = 100 * 10 ^ 18 := by
  refine ⟨?_, lookupShares_creditShares_self _ _ _, rfl⟩
  unfold addLiquidity
  rw [if_neg (not_or.mpr ⟨hA, hB⟩), if_pos hT, if_pos rfl]

/-- Witness for C5: the first deposit of the test scenario — 100000 of each
token (full scale) into the empty pool. -/
theorem addLiquidity_empty_spec_witness :
    addLiquidity emptyState (100000 * 10 ^ 18) (100000 * 10 ^ 18) 0 true =
      .ok ⟨100000 * 10 ^ 18, 100000 * 10 ^ 18, INITIAL_SHARES,
           creditShares emptyState.shareOf 0 INITIAL_SHARES⟩ ∧
    lookupShares (creditShares emptyState.shareOf 0 INITIAL_SHARES) 0 =
      lookupShares emptyState.shareOf 0 + INITIAL_SHARES ∧
    INITIAL_SHARES = 100 * 10 ^ 18 :=
  addLiquidity_empty_spec emptyState _ _ 0 rfl (by norm_num) (by norm_num)

/-- Claim C6: on a seeded pool, addLiquidity with nonzero amounts and
amountB = floor(reserveB * amountA / reserveA) mints
floor(totalShares * amountA / reserveA) new shares to the provider and adds
both amounts to the respective reserves. -/
theorem addLiquidity_seeded_spec (s : AMMState) (amountA amountB provider : Nat)
    (hT : s.totalShares ≠ 0) (hA : amountA ≠ 0) (hB : amountB ≠ 0)
    (hReq : amountB = s.reserveB * amountA / s.reserveA) :
    addLiquidity s amountA amountB provider true =
      .ok ⟨s.reserveA + amountA, s.reserveB + amountB,
           s.totalShares + s.totalShares * amountA / s.reserveA,
           creditShares s.shareOf provider (s.totalShares * amountA / s.reserveA)⟩ ∧
    lookupShares
        (creditShares s.shareOf provider (s.totalShares * amountA / s.reserveA))
        provider =
      lookupShares s.shareOf provider + s.totalShares * amountA / s.reserveA := by
  refine ⟨?_, lookupShares_creditShares_self _ _ _⟩
  unfold addLiquidity
  rw [if_neg (not_or.mpr ⟨hA, hB⟩), if_neg hT, if_neg (fun hc => hc hReq), if_pos rfl]

/-- Witness for C6: with reserveA = reserveB = 100000 and totalShares = 100,
depositing 50000 at the matching ratio mints 50 shares, totalShares becomes
150, and the first provider still holds 100 shares. -/
theorem addLiquidity_seeded_spec_witness :
    addLiquidity ⟨100000, 100000, 100, [(0, 100)]⟩ 50000 50000 1 true =
      .ok ⟨150000, 150000, 150, [(0, 100), (1, 50)]⟩ ∧
    lookupShares [(0, 100), (1, 50)] 1 = 50 ∧
    lookupShares [(0, 100), (1, 50)] 0 = 100 := by
  have h := addLiquidity_seeded_spec ⟨100000, 100000, 100, [(0, 100)]⟩ 50000 50000 1
    (by decide) (by decide) (by decide) (by norm_num)
  exact ⟨h.1.trans rfl, by decide, by decide⟩

/-- Claim C7: for nonzero shareAmount within the provider's balance,
removeLiquidity pays out floor-proportional amounts of both reserves and
subtracts shareAmount from totalShares and from the provider's balance. -/
theorem removeLiquidity_spec (s : AMMState) (shareAmount provider : Nat)
    (h0 : shareAmount ≠ 0) (h1 : shareAmount ≤ lookupShares s.shareOf provider) :
    removeLiquidity s shareAmount provider true =
      .ok (⟨s.reserveA - s.reserveA * shareAmount / s.totalShares,
            s.reserveB - s.reserveB * shareAmount / s.totalShares,
            s.totalShares - shareAmount,
            debitShares s.shareOf provider shareAmount⟩,
           s.reserveA * shareAmount / s.totalShares,
           s.reserveB * shareAmount / s.totalShares) ∧
    lookupShares (debitShares s.shareOf provider shareAmount) provider =
      lookupShares s.shareOf provider - shareAmount := by
  refine ⟨?_, lookupShares_debitShares_self _ _ _⟩
  unfold removeLiquidity
  rw [if_neg h0, if_neg (by omega), if_pos rfl]

/-- Witness for C7: a holder of 50 shares removing 30 from a pool with
reserves 150000/150000 and totalShares 150 receives 30000 of each token, is
left with 20 shares, and totalShares becomes 120. -/
theorem removeLiquidity_spec_witness :
    removeLiquidity ⟨150000, 150000, 150, [(0, 100), (1, 50)]⟩ 30 1 true =
      .ok (⟨120000, 120000, 120, [(0, 100), (1, 20)]⟩, 30000, 30000) ∧
    lookupShares [(0, 100), (1, 20)] 1 = 20 := by
  have h := removeLiquidity_spec ⟨150000, 150000, 150, [(0, 100), (1, 50)]⟩ 30 1
    (by decide) (by decide)
  exact ⟨h.1.trans rfl, by decide⟩

/-- Claim C9: a failing invocation of any mutating operation leaves the
entire pool state — reserves, totalShares and the whole share ledger —
exactly as it was. -/
theorem failedOp_state_unchanged (s : AMMState) (op : AMMOp) (e : AMMError)
    (h : runOp s op = .error e) : applyOp s op = s := by
  unfold applyOp
  rw [h]

/-- Witness for C9: swapping against the empty pool fails with EmptyPool and
the observed state is unchanged. -/
theorem failedOp_state_unchanged_witness :
    applyOp emptyState (.swapToken1 5 true) = emptyState :=
  failedOp_state_unchanged emptyState (.swapToken1 5 true) .EmptyPool rfl

end LSwap

namespace AmmSlice

theorem foldl_setContract_fixed (init : State) (ps : List (List (Option Nat))) :
    (ps.foldl setContract init).shares = init.shares ∧
    (ps.foldl setContract init).swaps = init.swaps := by
  induction ps generalizing init with
  | nil => exact ⟨rfl, rfl⟩
  | cons hd tl ih => exact ih (setContract init hd)

/-- Claim C10: the setContract reducer replaces only the contract field with
the payload and leaves shares and swaps unchanged; as the slice's only
reducer, any sequence of dispatches keeps shares = [0, 0, 0] and swaps = []. -/
theorem setContract_frame :
    (∀ (s : State) (payload : List (Option Nat)),
      (setContract s payload).contract = payload ∧
      (setContract s payload).shares = s.shares ∧
      (setContract s payload).swaps = s.swaps) ∧
    (∀ ps : List (List (Option Nat)),
      (ps.foldl setContract initialState).shares = [0, 0, 0] ∧
      (ps.foldl setContract initialState).swaps = []) := by
  refine ⟨fun s payload => ⟨rfl, rfl, rfl⟩, fun ps => ?_⟩
  exact foldl_setContract_fixed initialState ps

end AmmSlice
